import Mathlib

/-!
Verification development for the neko-cli release plugin.

This file shallowly embeds the release core of the repository:
  * the Masterminds `semver/v3` routines the plugin links against
    (`NewVersion`, `Compare`, `LessThan`, `IncMajor`/`IncMinor`/`IncPatch`),
  * the version guard (`EnsureVersionIsValid`, `VersionGuard`, `LatestTag`),
  * release-type resolution (`ResolveReleaseType`, `NextVersion`),
  * the rollback coordinator (`RevertGitRelease`) as a trace-producing
    function over an oracle describing the outcomes of the git/GitHub
    primitives,
  * the saga (`Service.Run`) and the preflight checker, and
  * the dispatcher (`Dispatcher.Dispatch`) with its stderr log parser.

External side effects (subprocess invocations, HTTP calls, JSON decoding)
are modelled by explicit environment records: each field records the result
the corresponding primitive would return.  Machine integers (`uint64`) are
modelled as `Nat` with explicit `% 2^64` where Go arithmetic can overflow.
-/

namespace Neko

/-! ## Masterminds semver v3 model -/

/-- The constant `2^64`, the modulus of Go's `uint64` arithmetic. -/
def U64MOD : Nat := 2 ^ 64

/-- Characters allowed in pre-release / metadata identifiers:
`[0-9A-Za-z-]` (the character class of the Masterminds regex). -/
def isIdentChar (c : Char) : Bool :=
  c.isDigit || (('A' ≤ c) && (c ≤ 'Z')) || (('a' ≤ c) && (c ≤ 'z')) || c = '-'

/-- Model of `strconv.ParseUint(s, 10, 64)`: decimal digits only, value below `2^64`. -/
def parseUint64 (s : String) : Option Nat :=
  if s = "" then none
  else if s.data.all Char.isDigit then
    let n := s.data.foldl (fun a c => a * 10 + (c.toNat - 48)) 0
    if n < U64MOD then some n else none
  else none

/-- A parsed `semver.Version` (fields of the Go struct). -/
structure SemVer where
  major : Nat
  minor : Nat
  patch : Nat
  pre : String
  metadata : String
  original : String
deriving DecidableEq, Repr

/-- The capture groups of Masterminds' `semVerRegex` that `NewVersion`
consults: `m[1]` (major digits), `m[2]`/`m[3]` (minor/patch, each with the
leading dot), `m[5]` (pre-release), `m[8]` (build metadata). -/
structure SemVerMatch where
  m1 : String
  m2 : String
  m3 : String
  m5 : String
  m8 : String
deriving DecidableEq, Repr

/-- Matches the tail `("." seg)*` of a dotted identifier sequence,
returning the consumed characters and the rest.  `fuel` bounds recursion
(instantiated with the input length, which suffices since every step
consumes at least two characters). -/
def dottedTail (fuel : Nat) (cs : List Char) (acc : List Char) :
    List Char × List Char :=
  match fuel with
  | 0 => (acc, cs)
  | fuel + 1 =>
    match cs with
    | '.' :: rest =>
      let seg := rest.takeWhile isIdentChar
      if seg = [] then (acc, cs)
      else dottedTail fuel (rest.dropWhile isIdentChar) (acc ++ '.' :: seg)
    | _ => (acc, cs)

/-- Matches `seg ("." seg)*` over the identifier character class,
returning the matched text and the remaining characters. -/
def parseDotted (cs : List Char) : Option (String × List Char) :=
  let seg := cs.takeWhile isIdentChar
  if seg = [] then none
  else
    let rest0 := cs.dropWhile isIdentChar
    let (more, rest) := dottedTail cs.length rest0 []
    some (String.mk (seg ++ more), rest)

/-- Functional rendering of the anchored `semVerRegex`
`^v?([0-9]+)(\.[0-9]+)?(\.[0-9]+)?(-(ids))?(\+(ids))?$`.
The regex is deterministic on this grammar (each optional group starts
with a character no later group can consume), so greedy left-to-right
matching is exact. -/
def semverMatch (s : String) : Option SemVerMatch :=
  let cs0 := s.data
  let cs1 := if cs0.head? = some 'v' then cs0.tail else cs0
  let majorDigits := cs1.takeWhile Char.isDigit
  if majorDigits = [] then none
  else
    let rest1 := cs1.dropWhile Char.isDigit
    -- optional (\.[0-9]+) for the minor part
    let (minorStr, rest2) :=
      match rest1 with
      | '.' :: r =>
        let ds := r.takeWhile Char.isDigit
        if ds = [] then ("", rest1)
        else (String.mk ('.' :: ds), r.dropWhile Char.isDigit)
      | _ => ("", rest1)
    -- optional (\.[0-9]+) for the patch part
    let (patchStr, rest3) :=
      match rest2 with
      | '.' :: r =>
        let ds := r.takeWhile Char.isDigit
        if ds = [] then ("", rest2)
        else (String.mk ('.' :: ds), r.dropWhile Char.isDigit)
      | _ => ("", rest2)
    -- optional (-(ids)) pre-release block
    let preOpt : Option (String × List Char) :=
      match rest3 with
      | '-' :: r => parseDotted r
      | _ => some ("", rest3)
    match preOpt with
    | none => none
    | some (preStr, rest4) =>
      -- optional (\+(ids)) metadata block
      let metaOpt : Option (String × List Char) :=
        match rest4 with
        | '+' :: r => parseDotted r
        | _ => some ("", rest4)
      match metaOpt with
      | none => none
      | some (metaStr, rest5) =>
        if rest5 = [] then
          some { m1 := String.mk majorDigits, m2 := minorStr, m3 := patchStr,
                 m5 := preStr, m8 := metaStr }
        else none

/-- Splits a character list at every occurrence of `sep` (the behaviour of
Go's `strings.Split` with a one-character separator); written by structural
recursion so that it evaluates inside the kernel. -/
def splitCharAux (sep : Char) : List Char → List Char → List String
  | [], acc => [String.mk acc.reverse]
  | c :: rest, acc =>
    if c = sep then String.mk acc.reverse :: splitCharAux sep rest []
    else splitCharAux sep rest (c :: acc)

/-- Model of `strings.Split(s, sep)` for a one-character separator. -/
def splitChar (sep : Char) (s : String) : List String :=
  splitCharAux sep s.data []

/-- Model of `containsOnly(s, comp)` from Masterminds: every rune of `s` occurs in
`comp`. -/
def containsOnly (s comp : String) : Bool :=
  s.data.all (fun c => comp.data.contains c)

/-- The digit set `num` of Masterminds. -/
def numChars : String := "0123456789"

/-- The identifier set `allowed` of Masterminds (`alphanum + "-"`). -/
def allowedChars : String :=
  "abcdefghijklmnopqrstuvwxyzABCDEFGHIJKLMNOPQRSTUVWXYZ0123456789-"

/-- Model of `validatePrerelease`: every dot-separated segment is either a numeric
segment without a leading zero or an alphanumeric-or-hyphen identifier. -/
def validatePrerelease (p : String) : Bool :=
  (splitChar '.' p).all fun seg =>
    if containsOnly seg numChars then
      !(decide (seg.length > 1) && decide (seg.data.head? = some '0'))
    else containsOnly seg allowedChars

/-- Model of `validateMetadata`: every dot-separated segment is an
alphanumeric-or-hyphen identifier. -/
def validateMetadata (m : String) : Bool :=
  (splitChar '.' m).all fun seg => containsOnly seg allowedChars

/-- Model of `strings.TrimPrefix(s, ".")`. -/
def trimDot (s : String) : String :=
  match s.data with
  | '.' :: rest => String.mk rest
  | _ => s

/-- Model of `semver.NewVersion`: regex match, numeric conversion of the three
segments (absent minor/patch default to 0), then pre-release/metadata
validation.  `none` models the error return. -/
def NewVersion (v : String) : Option SemVer :=
  match semverMatch v with
  | none => none
  | some m =>
    match parseUint64 m.m1 with
    | none => none
    | some major =>
      let minorOpt := if m.m2 = "" then some 0 else parseUint64 (trimDot m.m2)
      let patchOpt := if m.m3 = "" then some 0 else parseUint64 (trimDot m.m3)
      match minorOpt, patchOpt with
      | some minor, some patch =>
        if m.m5 ≠ "" && !validatePrerelease m.m5 then none
        else if m.m8 ≠ "" && !validateMetadata m.m8 then none
        else some { major := major, minor := minor, patch := patch,
                    pre := m.m5, metadata := m.m8, original := v }
      | _, _ => none

/-- Model of `compareSegment` on `uint64` values. -/
def compareSegment (v o : Nat) : Int :=
  if v < o then -1 else if v > o then 1 else 0

/-- Model of `comparePrePart`: numeric-aware comparison of one pre-release
segment pair (Go compares missing parts as `""`). -/
def comparePrePart (s o : String) : Int :=
  if s = o then 0
  else if s = "" then (if o ≠ "" then -1 else 1)
  else if o = "" then (if s ≠ "" then 1 else -1)
  else
    match parseUint64 o, parseUint64 s with
    | none, none => if o < s then 1 else -1
    | none, some _ => -1
    | some _, none => 1
    | some oi, some si => if si > oi then 1 else if si < oi then -1 else 0

/-- The loop of `comparePrerelease`: pad the shorter list with `""`. -/
def comparePreParts : List String → List String → Int
  | [], [] => 0
  | a :: as, [] =>
    let d := comparePrePart a ""
    if d ≠ 0 then d else comparePreParts as []
  | [], b :: bs =>
    let d := comparePrePart "" b
    if d ≠ 0 then d else comparePreParts [] bs
  | a :: as, b :: bs =>
    let d := comparePrePart a b
    if d ≠ 0 then d else comparePreParts as bs

/-- Model of `comparePrerelease`: split both pre-release strings on `"."` and
compare part-wise. -/
def comparePrerelease (v o : String) : Int :=
  comparePreParts (splitChar '.' v) (splitChar '.' o)

/-- Model of `Version.Compare`: majors, minors, patches, then pre-release
precedence (absence of a pre-release ranks higher). -/
def SemVer.Compare (v o : SemVer) : Int :=
  if compareSegment v.major o.major ≠ 0 then compareSegment v.major o.major
  else if compareSegment v.minor o.minor ≠ 0 then compareSegment v.minor o.minor
  else if compareSegment v.patch o.patch ≠ 0 then compareSegment v.patch o.patch
  else if v.pre = "" && o.pre = "" then 0
  else if v.pre = "" then 1
  else if o.pre = "" then -1
  else comparePrerelease v.pre o.pre

/-- Model of `Version.LessThan`. -/
def SemVer.LessThan (v o : SemVer) : Bool := v.Compare o < 0

/-- Model of `Version.GreaterThan`. -/
def SemVer.GreaterThan (v o : SemVer) : Bool := v.Compare o > 0

/-- Model of `Version.String()`: `major.minor.patch[-pre][+metadata]`. -/
def SemVer.verString (v : SemVer) : String :=
  Nat.repr v.major ++ "." ++ Nat.repr v.minor ++ "." ++ Nat.repr v.patch
    ++ (if v.pre ≠ "" then "-" ++ v.pre else "")
    ++ (if v.metadata ≠ "" then "+" ++ v.metadata else "")

/-- Model of `Version.originalVPrefix()`: `"v"` when the original string carried
one. -/
def SemVer.originalVPrefix (v : SemVer) : String :=
  if v.original ≠ "" && v.original.data.head? = some 'v' then "v" else ""

/-- Model of `Version.IncMajor`: bump major (uint64 wrap), zero the rest, drop
pre-release and metadata. -/
def SemVer.IncMajor (v : SemVer) : SemVer :=
  let vnext : SemVer :=
    { v with metadata := "", pre := "", patch := 0, minor := 0,
             major := (v.major + 1) % U64MOD }
  { vnext with original := v.originalVPrefix ++ vnext.verString }

/-- Model of `Version.IncMinor`: bump minor (uint64 wrap), zero patch, drop
pre-release and metadata. -/
def SemVer.IncMinor (v : SemVer) : SemVer :=
  let vnext : SemVer :=
    { v with metadata := "", pre := "", patch := 0,
             minor := (v.minor + 1) % U64MOD }
  { vnext with original := v.originalVPrefix ++ vnext.verString }

/-- Model of `Version.IncPatch`: drop a pre-release if present, otherwise bump
patch (uint64 wrap); metadata is dropped either way. -/
def SemVer.IncPatch (v : SemVer) : SemVer :=
  let vnext : SemVer :=
    if v.pre ≠ "" then { v with metadata := "", pre := "" }
    else { v with metadata := "", pre := "", patch := (v.patch + 1) % U64MOD }
  { vnext with original := v.originalVPrefix ++ vnext.verString }

/-! ## Release configuration and the version guard -/

/-- Model of `config.NekoConfig` of the release plugin (`.release.neko.json`);
only the fields the saga consults are carried. -/
structure NekoConfig where
  projectType : String
  releaseSystem : String
  version : String
deriving DecidableEq, Repr

/-- Model of `EnsureVersionIsValid(cfg, latestTag)`: parse the local version
(error when invalid), parse the tag (on failure warn, skip the
comparison and proceed on the local version), otherwise reject exactly a
strictly smaller local version. -/
def EnsureVersionIsValid (cfg : NekoConfig) (latestTag : String) :
    Except String SemVer :=
  match NewVersion cfg.version with
  | none =>
    .error ("version " ++ cfg.version ++
      " in .release.neko.json is not a valid semantic version")
  | some localVer =>
    match NewVersion latestTag with
    | none =>
      -- errors.WriteWarning: comparison skipped, local version used
      .ok localVer
    | some remoteVer =>
      if localVer.LessThan remoteVer then
        .error ("version violation: Local version " ++ localVer.verString ++
          " is smaller than latest tag " ++ remoteVer.verString)
      else .ok localVer

/-! ## Release type resolution -/

/-- Model of `release.Type`, a string-typed enumeration: values outside the three
constants are representable. -/
def RType := String
deriving instance DecidableEq, Repr for RType

/-- Model of `release.Major`. -/
def Major : RType := "major"
/-- Model of `release.Minor`. -/
def Minor : RType := "minor"
/-- Model of `release.Patch`. -/
def Patch : RType := "patch"

/-- Model of `NextVersion(current, t)`: dispatch on the release type, returning the
current version unchanged for an unrecognized type (the `default` arm). -/
def NextVersion (current : SemVer) (t : RType) : SemVer :=
  if t = Major then current.IncMajor
  else if t = Minor then current.IncMinor
  else if t = Patch then current.IncPatch
  else current

/-- Model of `ResolveReleaseType(version, releaseType)`: computes the next version
(only for the log line) and returns the type with a `nil` error. -/
def ResolveReleaseType (version : SemVer) (releaseType : RType) :
    RType × Option String :=
  let _newVer := NextVersion version releaseType  -- logged, not returned
  (releaseType, none)

/-- Model of `ParseReleaseType(input)` (lower-cases, defaults to `Patch` with an
error for anything unrecognized). -/
def ParseReleaseType (input : String) : RType × Option String :=
  let lowered := String.mk (input.data.map Char.toLower)
  if lowered = "major" then (Major, none)
  else if lowered = "minor" then (Minor, none)
  else if lowered = "patch" then (Patch, none)
  else (Patch, some "valid options: major, minor, patch")

/-! ## Latest tag lookup and the version guard proper -/

/-- Model of `strings.TrimSpace` on the output of a subprocess. -/
def trimSpace (s : String) : String :=
  String.mk (((s.data.dropWhile Char.isWhitespace).reverse.dropWhile
    Char.isWhitespace).reverse)

/-- Result of running `git describe --tags --abbrev=0`: `none` models a
failed invocation (no tags / no git), `some out` its raw output. -/
structure GuardEnv where
  describeOut : Option String
deriving DecidableEq, Repr

/-- Model of `git.LatestTag()`: on command failure or empty output warn and fall
back to the default version `"0.1.0"`, else return the trimmed output.
The `Bool` records whether the fallback warning was emitted. -/
def LatestTag (env : GuardEnv) : String × Bool :=
  match env.describeOut with
  | none => ("0.1.0", true)
  | some out =>
    let outputStr := trimSpace out
    if outputStr = "" then ("0.1.0", true) else (outputStr, false)

/-- Model of `VersionGuard(cfg)`: fetch, read the latest tag, and validate the
local version against it. -/
def VersionGuard (env : GuardEnv) (cfg : NekoConfig) : Except String SemVer :=
  EnsureVersionIsValid cfg (LatestTag env).1

/-! ## Rollback coordinator (`ToolBase.RevertGitRelease`) -/

/-- Model of `release.GitReleaseState`: the backend-owned record of which release
side effects completed. -/
structure GitReleaseState where
  PreHead : String
  ReleaseHead : String
  TagName : String
  GitHubReleaseTag : String
  PushedCommit : Bool
  PushedTag : Bool
  CreatedGitHubRelease : Bool
deriving DecidableEq, Repr

/-- One observable call to a git/GitHub compensation primitive. -/
inductive GitEv where
  | deleteGitHubRelease (tag : String)
  | deleteLocalTag (tag : String)
  | deleteRemoteTag (tag : String)
  | revertCommit (hash : String)
  | createCommit (msg : String)
  | pushCommits
  | hardResetTo (hash : String)
  | cleanUntracked
deriving DecidableEq, Repr

/-- Outcomes of the compensation primitives: `true` means the primitive
returns `nil`.  `deleteLocalTagOk` and `createCommitOk` exist so that the
model records the call even though `RevertGitRelease` discards their
errors (`_ =` in the source). -/
structure RevertEnv where
  deleteGitHubReleaseOk : Bool
  deleteLocalTagOk : Bool
  deleteRemoteTagOk : Bool
  revertCommitOk : Bool
  createCommitOk : Bool
  pushCommitsOk : Bool
  hardResetOk : Bool
  cleanUntrackedOk : Bool
deriving DecidableEq, Repr

/-- Final cleanup phase of `RevertGitRelease`: `git.CleanUntracked()`.
Each phase returns the primitive calls it performs (in order) together
with the error result (`none` = `nil`); the caller prepends its own
calls, so the pair mirrors the source's straight-line sequencing. -/
def revertCleanup (env : RevertEnv) : List GitEv × Option String :=
  ([GitEv.cleanUntracked],
   if env.cleanUntrackedOk then none
   else some "rollback: failed cleaning untracked files")

/-- Commit-compensation phase of `RevertGitRelease` (the `// Commits`
block): revert-or-empty-commit plus push for a pushed commit, hard reset
for an unpushed one, inconsistent-state error when no pre-head was
recorded; falls through to the cleanup phase unless it returns an
error. -/
def revertCommitsPhase (env : RevertEnv) (st : GitReleaseState) :
    List GitEv × Option String :=
  if st.ReleaseHead ≠ "" then
    if st.PushedCommit then
      -- empty commits cannot be reverted: the fallback commit's error is
      -- discarded by the source
      let evs :=
        (if env.revertCommitOk then [GitEv.revertCommit st.ReleaseHead]
         else [GitEv.revertCommit st.ReleaseHead,
               GitEv.createCommit ("revert " ++ st.ReleaseHead)])
          ++ [GitEv.pushCommits]
      if env.pushCommitsOk then
        let c := revertCleanup env
        (evs ++ c.1, c.2)
      else (evs, some "rollback: failed pushing revert commit")
    else if st.PreHead ≠ "" then
      if env.hardResetOk then
        let c := revertCleanup env
        (GitEv.hardResetTo st.PreHead :: c.1, c.2)
      else ([GitEv.hardResetTo st.PreHead],
            some ("rollback: failed hard reset to " ++ st.PreHead))
    else
      ([],
       some "rollback: inconsistent state (release commit exists but pre-head missing)")
  else revertCleanup env

/-- Tag-compensation phase of `RevertGitRelease` (the `// Tags` block):
best-effort local deletion, mandatory remote deletion when the tag was
pushed; falls through to the commit phase unless it returns an error. -/
def revertTagsPhase (env : RevertEnv) (st : GitReleaseState) :
    List GitEv × Option String :=
  if st.TagName ≠ "" then
    -- the local deletion's error is discarded by the source
    if st.PushedTag then
      if env.deleteRemoteTagOk then
        let c := revertCommitsPhase env st
        (GitEv.deleteLocalTag st.TagName :: GitEv.deleteRemoteTag st.TagName
          :: c.1, c.2)
      else
        ([GitEv.deleteLocalTag st.TagName, GitEv.deleteRemoteTag st.TagName],
         some ("rollback: failed deleting remote tag " ++ st.TagName))
    else
      let c := revertCommitsPhase env st
      (GitEv.deleteLocalTag st.TagName :: c.1, c.2)
  else revertCommitsPhase env st

/-- Model of `ToolBase.RevertGitRelease(st)`: GitHub release deletion first, then
tags, then commit compensation, then untracked-file cleanup.  Returns the
trace of primitive calls and the error result (`none` = `nil`). -/
def RevertGitRelease (env : RevertEnv) (st : GitReleaseState) :
    List GitEv × Option String :=
  -- GitHub release has to be deleted before the corresponding tag
  if st.CreatedGitHubRelease && st.GitHubReleaseTag ≠ "" then
    if env.deleteGitHubReleaseOk then
      let c := revertTagsPhase env st
      (GitEv.deleteGitHubRelease st.GitHubReleaseTag :: c.1, c.2)
    else
      ([GitEv.deleteGitHubRelease st.GitHubReleaseTag],
       some ("rollback: failed deleting GitHub release " ++
             st.GitHubReleaseTag))
  else revertTagsPhase env st

/-! ## Structured responses, errors and the preflight checker -/

/-- Model of `plugin.ResponseError` (the untyped `Details` map is not consulted by
any verified path and is elided). -/
structure ResponseError where
  code : String
  message : String
deriving DecidableEq, Repr

/-- Model of `plugin.LogEntry`. -/
structure LogEntry where
  timestamp : String
  level : String
  category : String
  message : String
deriving DecidableEq, Repr

/-- Model of `plugin.Response`; metadata is flattened to the plugin name and
version (the wall-clock timestamp and the untyped `Data` map are not
consulted by any verified path and are elided). -/
structure Response where
  status : String
  plugin : String
  version : String
  error : Option ResponseError
  logs : List LogEntry
deriving DecidableEq, Repr

/-- Model of `errors.WriteError(code, message)`: the error response encoded to
stdout right before `os.Exit(1)` (plugin identity left at the release
plugin's values). -/
def WriteError (code message : String) : Response :=
  { status := "error", plugin := "release", version := "1.0.0",
    error := some { code := code, message := message }, logs := [] }

/-- Outcomes of the five preflight git predicates: `some msg` is the
error the predicate returns, `none` success. -/
structure GitEnv where
  isCleanErr : Option String
  notDetachedErr : Option String
  onMainBranchErr : Option String
  hasUpstreamErr : Option String
  isUpToDateErr : Option String
deriving DecidableEq, Repr

/-- Model of `release.Preflight()`: runs the five predicates in order; the first
failure calls `errors.WriteError`, which writes the response and exits
the process — modelled as `some response`.  `none` means all checks
passed and control returns to the caller. -/
def Preflight (g : GitEnv) : Option Response :=
  match g.isCleanErr with
  | some m => some (WriteError "UNCOMMITTED_CHANGES" m)
  | none =>
  match g.notDetachedErr with
  | some m => some (WriteError "DETACHED_HEAD" m)
  | none =>
  match g.onMainBranchErr with
  | some m => some (WriteError "INCORRECT_BRANCH" m)
  | none =>
  match g.hasUpstreamErr with
  | some m => some (WriteError "NO_UPSTREAM_BRANCH" m)
  | none =>
  match g.isUpToDateErr with
  | some m => some (WriteError "BRANCH_OUT_OF_DATE" m)
  | none => none

/-! ## Release orchestration saga (`Service.Run`) -/

/-- Go error values as the saga builds them: `msg` is an
`errors.New`/`fmt.Errorf` leaf, `wrap1`/`wrap2` are `fmt.Errorf` calls
whose format string carries one or two `%w` verbs wrapping the given
errors in order. -/
inductive GoErr where
  | msg (s : String)
  | wrap1 (fmtStr : String) (e : GoErr)
  | wrap2 (fmtStr : String) (e1 e2 : GoErr)
deriving DecidableEq, Repr

/-- Observable saga side-effect calls on the selected backend and the
config store. -/
inductive RunEv where
  | releaseCall (v : SemVer)
  | revertCall
  | saveConfig (v : SemVer)
deriving DecidableEq, Repr

/-- How a `Service.Run` invocation ends: `exited` models `os.Exit(1)`
after an error response was written (preflight failure or a fatal git
error), `ret` the function's ordinary error return. -/
inductive RunOutcome where
  | exited (resp : Response)
  | ret (e : Option GoErr)
deriving DecidableEq, Repr

/-- Environment of one `Service.Run` invocation: results of
`git.Current`, the preflight predicates, the `git describe` lookup, the
registry lookup (modelled from the spec: `get(name) → backend |
NotFoundError`; the plugin's registry source is not in the tree), the
backend's `Release` and `RevertRelease` calls, and `SaveConfig`. -/
structure RunEnv where
  currentFatal : Option Response
  git : GitEnv
  guard : GuardEnv
  registryErr : Option GoErr
  releaseErr : Option GoErr
  revertErr : Option GoErr
  saveConfigErr : Option GoErr
deriving DecidableEq, Repr

/-- Model of `Service.Run(releaseType)`: check the repository, preflight, version
guard, registry lookup, release-type resolution, then the backend's
`Release`; on release failure run `RevertRelease` and report the release
error (wrapping a revert failure around it); on success persist the new
version, downgrading a persistence failure to a warning. -/
def ServiceRun (env : RunEnv) (cfg : NekoConfig) (releaseType : RType) :
    List RunEv × RunOutcome :=
  match env.currentFatal with
  | some resp => ([], .exited resp)   -- errors.Fatal inside git.Current
  | none =>
  match Preflight env.git with
  | some resp => ([], .exited resp)   -- errors.WriteError + os.Exit(1)
  | none =>
  match VersionGuard env.guard cfg with
  | .error e => ([], .ret (some (.msg e)))
  | .ok version =>
  match env.registryErr with
  | some e => ([], .ret (some (.wrap1 "release System Not Found: %w" e)))
  | none =>
  match ResolveReleaseType version releaseType with
  | (_, some e) => ([], .ret (some (.wrap1 "invalid Release Type: %w" (.msg e))))
  | (rt, none) =>
    let newVersion := NextVersion version rt
    match env.releaseErr with
    | some e =>
      let releaseError := GoErr.wrap1 "release failed: %w" e
      match env.revertErr with
      | some e2 =>
        ([.releaseCall newVersion, .revertCall],
         .ret (some (.wrap2 "%w: Failed undoing changes: %w" releaseError e2)))
      | none =>
        ([.releaseCall newVersion, .revertCall], .ret (some releaseError))
    | none =>
      -- a SaveConfig failure only emits errors.Warning
      ([.releaseCall newVersion, .saveConfig newVersion], .ret none)

/-! ## Execution gateway (`Dispatcher.Dispatch`) -/

/-- Lower-cases a string (ASCII, as the compared literals are ASCII). -/
def toLowerStr (s : String) : String :=
  String.mk (s.data.map Char.toLower)

/-- Does `needle` occur as a substring of `haystack`
(`strings.Contains`)? -/
def containsSub (haystack needle : List Char) : Bool :=
  match haystack with
  | [] => needle = []
  | _ :: rest => needle.isPrefixOf haystack || containsSub rest needle

/-- Model of `strings.Contains(s, sub)`. -/
def strContains (s sub : String) : Bool := containsSub s.data sub.data

/-- Model of `inferLogLevel(msg)`: severity heuristics on the message text. -/
def inferLogLevel (msg : String) : String :=
  let msgLower := toLowerStr msg
  if strContains msgLower "error" || strContains msgLower "failed" then "error"
  else if strContains msgLower "warn" then "warn"
  else if msg.startsWith "V$" then "verbose"
  else "info"

/-- Model of `strings.SplitN(s, " ", 3)`: at most three fields, the last keeps the
remaining separators. -/
def splitNSpace3 (s : String) : List String :=
  match splitChar ' ' s with
  | p0 :: p1 :: rest =>
    if rest = [] then [p0, p1]
    else [p0, p1, String.intercalate " " rest]
  | parts => parts

/-- Model of `strings.Trim(s, "[]")`: strip leading and trailing `[` / `]`. -/
def trimBrackets (s : String) : String :=
  let cut := fun (c : Char) => c = '[' || c = ']'
  String.mk (((s.data.dropWhile cut).reverse.dropWhile cut).reverse)

/-- Model of `parseLogLine(line)`: either the structured
`"15:04:05 [category] message"` form, or a fallback entry stamped with
the current time (`now`, threaded explicitly since `time.Now()` is a
side effect). -/
def parseLogLine (now line : String) : LogEntry :=
  let parts := splitNSpace3 line
  if parts.length ≥ 3
      && (parts.getD 1 "").startsWith "["
      && (parts.getD 1 "").endsWith "]" then
    { timestamp := parts.getD 0 "",
      level := inferLogLevel (parts.getD 2 ""),
      category := trimBrackets (parts.getD 1 ""),
      message := parts.getD 2 "" }
  else
    { timestamp := now, level := "info", category := "plugin", message := line }

/-- Model of `parseLogOutput(stderr)`: split into lines, trim, drop empties,
parse each line. -/
def parseLogOutput (now stderr : String) : List LogEntry :=
  if stderr = "" then []
  else (((splitChar '\n' stderr).map trimSpace).filter (· ≠ "")).map
    (parseLogLine now)

/-- Environment of one dispatch: the result of `cmd.Run()` (`some msg`
is a non-nil error, e.g. a non-zero exit status), the bytes the child
left on its two streams, and the current wall-clock time used for
fallback log stamps. -/
structure DispatchEnv where
  runErr : Option String
  stdout : String
  stderr : String
  now : String
deriving DecidableEq, Repr

/-- Model of `Dispatcher.Dispatch` after a successful plugin lookup and request
marshalling.  `unm` models `json.Unmarshal` into `plugin.Response`
(`none` = parse error).  On a failed run the gateway first tries to
parse a non-empty stdout as a structured response; only if that fails
does it synthesize the transport error embedding stderr. -/
def Dispatch (unm : String → Option Response) (env : DispatchEnv) :
    Except String Response :=
  match env.runErr with
  | some runMsg =>
    if env.stdout.length > 0 then
      match unm env.stdout with
      | some resp =>
        .ok { resp with logs := parseLogOutput env.now env.stderr }
      | none =>
        .error ("plugin execution failed: " ++ runMsg ++ "\nStderr: " ++
                env.stderr)
    else
      .error ("plugin execution failed: " ++ runMsg ++ "\nStderr: " ++
              env.stderr)
  | none =>
    match unm env.stdout with
    | none =>
      .error ("failed to parse plugin response\nOutput: " ++ env.stdout)
    | some resp =>
      .ok { resp with logs := parseLogOutput env.now env.stderr }

/-! ## Comparison helper lemmas -/

instance {ε α : Type} [DecidableEq ε] [DecidableEq α] :
    DecidableEq (Except ε α) := fun x y =>
  match x, y with
  | .ok a, .ok b =>
    if h : a = b then isTrue (by rw [h]) else isFalse (by simp [h])
  | .error a, .error b =>
    if h : a = b then isTrue (by rw [h]) else isFalse (by simp [h])
  | .ok _, .error _ => isFalse (by simp)
  | .error _, .ok _ => isFalse (by simp)

theorem compareSegment_self (a : Nat) : compareSegment a a = 0 := by
  simp [compareSegment]

theorem compareSegment_gt {a b : Nat} (h : b < a) : compareSegment a b = 1 := by
  unfold compareSegment
  rw [if_neg (by omega), if_pos (by omega)]

theorem comparePrePart_self (s : String) : comparePrePart s s = 0 := by
  simp [comparePrePart]

theorem comparePreParts_self (l : List String) : comparePreParts l l = 0 := by
  induction l with
  | nil => simp [comparePreParts]
  | cons a as ih => simp [comparePreParts, comparePrePart_self, ih]

theorem compare_self (v : SemVer) : v.Compare v = 0 := by
  by_cases h : v.pre = "" <;>
    simp [SemVer.Compare, compareSegment_self, h, comparePrerelease,
      comparePreParts_self]

/-- The result of `Compare` is `1` as soon as the major segments differ in favour of
the left argument. -/
theorem compare_major_gt {a b : SemVer} (h : b.major < a.major) :
    a.Compare b = 1 := by
  unfold SemVer.Compare
  rw [compareSegment_gt h]
  simp

theorem compare_minor_gt {a b : SemVer} (hM : a.major = b.major)
    (h : b.minor < a.minor) : a.Compare b = 1 := by
  unfold SemVer.Compare
  rw [hM, compareSegment_self, compareSegment_gt h]
  simp

theorem compare_patch_gt {a b : SemVer} (hM : a.major = b.major)
    (hm : a.minor = b.minor) (h : b.patch < a.patch) : a.Compare b = 1 := by
  unfold SemVer.Compare
  rw [hM, hm, compareSegment_self, compareSegment_self, compareSegment_gt h]
  simp

/-- A version without a pre-release outranks one with, all segments
equal. -/
theorem compare_pre_gt {a b : SemVer} (hM : a.major = b.major)
    (hm : a.minor = b.minor) (hp : a.patch = b.patch)
    (ha : a.pre = "") (hb : b.pre ≠ "") : a.Compare b = 1 := by
  unfold SemVer.Compare
  rw [hM, hm, hp, compareSegment_self, compareSegment_self,
      compareSegment_self]
  simp [ha, hb]

/-! ## Claim theorems -/

/-- C1: for every config whose recorded version parses and every
latest-tag string, `EnsureVersionIsValid` returns an error exactly when
the local version is strictly less than a validly-parsing tag (equality
passes with the local version), and an unparsable tag never yields an
error: the parsed local version is returned. -/
theorem ensureVersion_error_iff_behind (cfg : NekoConfig) (tag : String)
    (lv : SemVer) (hl : NewVersion cfg.version = some lv) :
    (∀ rv, NewVersion tag = some rv →
        (if lv.LessThan rv then
          EnsureVersionIsValid cfg tag =
            Except.error ("version violation: Local version " ++
              lv.verString ++ " is smaller than latest tag " ++ rv.verString)
         else EnsureVersionIsValid cfg tag = Except.ok lv)) ∧
    (NewVersion tag = none → EnsureVersionIsValid cfg tag = Except.ok lv) := by
  refine ⟨fun rv hr => ?_, fun hn => ?_⟩
  · by_cases h : lv.LessThan rv = true <;>
      simp [EnsureVersionIsValid, hl, hr, h]
  · simp [EnsureVersionIsValid, hl, hn]

/-- Sample config recording version `1.2.2` (the spec's end-to-end
scenario). -/
def cfg122 : NekoConfig := ⟨"other", "goreleaser", "1.2.2"⟩

/-- The version `1.2.2` as `NewVersion` parses it. -/
def ver122 : SemVer := ⟨1, 2, 2, "", "", "1.2.2"⟩

/-- The version `v1.3.0` as `NewVersion` parses it. -/
def ver130 : SemVer := ⟨1, 3, 0, "", "", "v1.3.0"⟩

theorem ensureVersion_error_iff_behind_witness :
    EnsureVersionIsValid cfg122 "v1.3.0" =
      Except.error
        "version violation: Local version 1.2.2 is smaller than latest tag 1.3.0" := by
  have h :=
    (ensureVersion_error_iff_behind cfg122 "v1.3.0" ver122 (by decide)).1
      ver130 (by decide)
  rw [if_pos (by decide)] at h
  exact h

/-- The version `1.2.3-alpha` as `NewVersion` parses it: a valid semantic version
carrying a pre-release. -/
def ver123alpha : SemVer := ⟨1, 2, 3, "alpha", "", "1.2.3-alpha"⟩

/-- The largest `uint64` value. -/
def U64MAX : Nat := 18446744073709551615

/-- A valid version whose patch segment is the largest `uint64`. -/
def verPatchMax : SemVer :=
  ⟨1, 2, U64MAX, "", "", "1.2.18446744073709551615"⟩

/-- C6 (counterexample): the claim fails as stated.  On `1.2.3-alpha` a
patch release leaves the patch segment at `3` instead of incrementing
it (`IncPatch` only strips the pre-release), and on a version whose
patch segment is `2^64 - 1` the Go `uint64` increment wraps to `0`, so
the result is not strictly greater. -/
theorem nextVersion_spec_cex :
    NewVersion "1.2.3-alpha" = some ver123alpha ∧
    (NextVersion ver123alpha Patch).patch = 3 ∧
    ¬(NextVersion ver123alpha Patch).patch = ver123alpha.patch + 1 ∧
    NewVersion "1.2.18446744073709551615" = some verPatchMax ∧
    (NextVersion verPatchMax Patch).patch = 0 ∧
    SemVer.GreaterThan (NextVersion verPatchMax Patch) verPatchMax = false := by
  decide

/-- C6 (amended): for a version whose incremented segment stays below
`2^64`, `NextVersion` increments that segment, zeroes every segment of
lower significance and drops pre-release/metadata, and the result is
strictly greater; for a version carrying a pre-release, a patch release
merely drops the pre-release (leaving `major.minor.patch` unchanged),
which is still strictly greater. -/
theorem nextVersion_increment_correct (v : SemVer) :
    (v.major + 1 < U64MOD →
      (NextVersion v Major).major = v.major + 1 ∧
      (NextVersion v Major).minor = 0 ∧
      (NextVersion v Major).patch = 0 ∧
      (NextVersion v Major).pre = "" ∧
      (NextVersion v Major).metadata = "" ∧
      (NextVersion v Major).GreaterThan v = true) ∧
    (v.minor + 1 < U64MOD →
      (NextVersion v Minor).major = v.major ∧
      (NextVersion v Minor).minor = v.minor + 1 ∧
      (NextVersion v Minor).patch = 0 ∧
      (NextVersion v Minor).pre = "" ∧
      (NextVersion v Minor).metadata = "" ∧
      (NextVersion v Minor).GreaterThan v = true) ∧
    (v.pre = "" → v.patch + 1 < U64MOD →
      (NextVersion v Patch).major = v.major ∧
      (NextVersion v Patch).minor = v.minor ∧
      (NextVersion v Patch).patch = v.patch + 1 ∧
      (NextVersion v Patch).pre = "" ∧
      (NextVersion v Patch).metadata = "" ∧
      (NextVersion v Patch).GreaterThan v = true) ∧
    (v.pre ≠ "" →
      (NextVersion v Patch).major = v.major ∧
      (NextVersion v Patch).minor = v.minor ∧
      (NextVersion v Patch).patch = v.patch ∧
      (NextVersion v Patch).pre = "" ∧
      (NextVersion v Patch).metadata = "" ∧
      (NextVersion v Patch).GreaterThan v = true) := by
  refine ⟨fun hM => ?_, fun hm => ?_, fun hpre hp => ?_, fun hpre => ?_⟩
  · have hmod : (v.major + 1) % U64MOD = v.major + 1 := Nat.mod_eq_of_lt hM
    have h1 : (NextVersion v Major).major = v.major + 1 := by
      simp +decide [NextVersion, Major, SemVer.IncMajor, hmod]
    have hgt := compare_major_gt (a := NextVersion v Major) (b := v)
      (by rw [h1]; omega)
    refine ⟨h1, ?_, ?_, ?_, ?_, by simp [SemVer.GreaterThan, hgt]⟩ <;>
      simp +decide [NextVersion, Major, SemVer.IncMajor]
  · have hmod : (v.minor + 1) % U64MOD = v.minor + 1 := Nat.mod_eq_of_lt hm
    have h1 : (NextVersion v Minor).major = v.major := by
      simp +decide [NextVersion, Major, Minor, SemVer.IncMinor]
    have h2 : (NextVersion v Minor).minor = v.minor + 1 := by
      simp +decide [NextVersion, Major, Minor, SemVer.IncMinor, hmod]
    have hgt := compare_minor_gt (a := NextVersion v Minor) (b := v) h1
      (by rw [h2]; omega)
    refine ⟨h1, h2, ?_, ?_, ?_, by simp [SemVer.GreaterThan, hgt]⟩ <;>
      simp +decide [NextVersion, Major, Minor, SemVer.IncMinor]
  · have hmod : (v.patch + 1) % U64MOD = v.patch + 1 := Nat.mod_eq_of_lt hp
    have h1 : (NextVersion v Patch).major = v.major := by
      simp +decide [NextVersion, Major, Minor, Patch, SemVer.IncPatch, hpre]
    have h2 : (NextVersion v Patch).minor = v.minor := by
      simp +decide [NextVersion, Major, Minor, Patch, SemVer.IncPatch, hpre]
    have h3 : (NextVersion v Patch).patch = v.patch + 1 := by
      simp +decide [NextVersion, Major, Minor, Patch, SemVer.IncPatch, hpre, hmod]
    have hgt := compare_patch_gt (a := NextVersion v Patch) (b := v) h1 h2
      (by rw [h3]; omega)
    refine ⟨h1, h2, h3, ?_, ?_, by simp [SemVer.GreaterThan, hgt]⟩ <;>
      simp +decide [NextVersion, Major, Minor, Patch, SemVer.IncPatch, hpre]
  · have h1 : (NextVersion v Patch).major = v.major := by
      simp +decide [NextVersion, Major, Minor, Patch, SemVer.IncPatch, hpre]
    have h2 : (NextVersion v Patch).minor = v.minor := by
      simp +decide [NextVersion, Major, Minor, Patch, SemVer.IncPatch, hpre]
    have h3 : (NextVersion v Patch).patch = v.patch := by
      simp +decide [NextVersion, Major, Minor, Patch, SemVer.IncPatch, hpre]
    have h4 : (NextVersion v Patch).pre = "" := by
      simp +decide [NextVersion, Major, Minor, Patch, SemVer.IncPatch, hpre]
    have hgt := compare_pre_gt (a := NextVersion v Patch) (b := v) h1 h2 h3
      h4 hpre
    refine ⟨h1, h2, h3, h4, ?_, by simp [SemVer.GreaterThan, hgt]⟩
    simp +decide [NextVersion, Major, Minor, Patch, SemVer.IncPatch, hpre]

/-- The version `1.2.3` as `NewVersion` parses it. -/
def ver123 : SemVer := ⟨1, 2, 3, "", "", "1.2.3"⟩

theorem nextVersion_increment_correct_witness :
    (NextVersion ver123 Major).GreaterThan ver123 = true ∧
    (NextVersion ver123alpha Patch).GreaterThan ver123alpha = true :=
  ⟨((nextVersion_increment_correct ver123).1 (by decide)).2.2.2.2.2,
   ((nextVersion_increment_correct ver123alpha).2.2.2 (by decide)).2.2.2.2.2⟩

/-- The environment in which `git describe --tags --abbrev=0` fails: no
tag exists. -/
def noTagEnv : GuardEnv := ⟨none⟩

/-- A config whose local version lies below the `0.1.0` fallback. -/
def cfg001 : NekoConfig := ⟨"other", "goreleaser", "0.0.1"⟩

/-- The version `0.1.0` as `NewVersion` parses it (the `LatestTag` fallback). -/
def ver010 : SemVer := ⟨0, 1, 0, "", "", "0.1.0"⟩

/-- C7 (counterexample): the claim fails as stated.  With no published
tag, `LatestTag` substitutes the default `"0.1.0"`, which parses as a
semantic version, so the guard does compare — and a local version
`0.0.1` (itself perfectly valid) is rejected rather than passed
through. -/
theorem versionGuard_bootstrap_cex :
    LatestTag noTagEnv = ("0.1.0", true) ∧
    (NewVersion "0.0.1").isSome = true ∧
    VersionGuard noTagEnv cfg001 =
      Except.error
        "version violation: Local version 0.0.1 is smaller than latest tag 0.1.0" := by
  decide

/-- C7 (amended): when no published tag exists, `LatestTag` emits a
warning and substitutes the default `"0.1.0"`; the guard then compares
the local version against `0.1.0`, proceeding on the local version
exactly when it is not strictly below `0.1.0`. -/
theorem versionGuard_bootstrap_default (env : GuardEnv) (cfg : NekoConfig)
    (lv : SemVer) (h : env.describeOut = none)
    (hl : NewVersion cfg.version = some lv) :
    LatestTag env = ("0.1.0", true) ∧
    (if lv.LessThan ver010 then
      VersionGuard env cfg =
        Except.error ("version violation: Local version " ++ lv.verString ++
          " is smaller than latest tag " ++ ver010.verString)
     else VersionGuard env cfg = Except.ok lv) := by
  have htag : LatestTag env = ("0.1.0", true) := by simp [LatestTag, h]
  refine ⟨htag, ?_⟩
  have hparse : NewVersion "0.1.0" = some ver010 := by decide
  unfold VersionGuard
  rw [htag]
  by_cases hlt : lv.LessThan ver010 = true <;>
    simp [EnsureVersionIsValid, hl, hparse, hlt]

theorem versionGuard_bootstrap_default_witness :
    LatestTag noTagEnv = ("0.1.0", true) ∧
    VersionGuard noTagEnv cfg122 = Except.ok ver122 := by
  have h := versionGuard_bootstrap_default noTagEnv cfg122 ver122 rfl (by decide)
  rw [if_neg (by decide)] at h
  exact h

/-- Classifies the events the commit-compensation and cleanup phases can
emit. -/
def commitEv : GitEv → Bool
  | .revertCommit _ => true
  | .createCommit _ => true
  | .pushCommits => true
  | .hardResetTo _ => true
  | .cleanUntracked => true
  | .deleteGitHubRelease _ => false
  | .deleteLocalTag _ => false
  | .deleteRemoteTag _ => false

/-- Everything except a GitHub-release deletion. -/
def nonGH : GitEv → Bool
  | .deleteGitHubRelease _ => false
  | _ => true

theorem commitEv_nonGH {e : GitEv} (h : commitEv e = true) : nonGH e = true := by
  cases e <;> simp_all [commitEv, nonGH]

theorem revertCleanup_events (env : RevertEnv) :
    ∀ e ∈ (revertCleanup env).1, commitEv e = true := by
  simp [revertCleanup, commitEv]

theorem revertCommitsPhase_events (env : RevertEnv) (st : GitReleaseState) :
    ∀ e ∈ (revertCommitsPhase env st).1, commitEv e = true := by
  intro e he
  unfold revertCommitsPhase at he
  by_cases hR : st.ReleaseHead = ""
  · rw [if_neg (not_not_intro hR)] at he
    exact revertCleanup_events env e he
  · rw [if_pos hR] at he
    by_cases hPC : st.PushedCommit = true
    · rw [if_pos hPC] at he
      by_cases hP : env.pushCommitsOk = true <;>
        [rw [if_pos hP] at he; rw [if_neg hP] at he] <;>
      by_cases hRC : env.revertCommitOk = true <;>
        simp [hRC, revertCleanup] at he <;>
      rcases he with rfl | rfl | rfl | rfl <;> rfl
    · rw [if_neg hPC] at he
      by_cases hPH : st.PreHead = ""
      · rw [if_neg (not_not_intro hPH)] at he
        simp at he
      · rw [if_pos hPH] at he
        by_cases hHR : env.hardResetOk = true <;>
          simp [hHR, revertCleanup] at he <;>
        rcases he with rfl | rfl <;> rfl

theorem revertTagsPhase_events (env : RevertEnv) (st : GitReleaseState) :
    ∀ e ∈ (revertTagsPhase env st).1, nonGH e = true := by
  intro e he
  have hc := revertCommitsPhase_events env st
  unfold revertTagsPhase at he
  by_cases hT : st.TagName = ""
  · rw [if_neg (not_not_intro hT)] at he
    exact commitEv_nonGH (hc e he)
  · rw [if_pos hT] at he
    by_cases hPT : st.PushedTag = true
    · rw [if_pos hPT] at he
      by_cases hRT : env.deleteRemoteTagOk = true <;>
        simp [hRT] at he
      · rcases he with rfl | rfl | h
        · rfl
        · rfl
        · exact commitEv_nonGH (hc e h)
      · rcases he with rfl | rfl <;> rfl
    · rw [if_neg hPT] at he
      simp at he
      rcases he with rfl | h
      · rfl
      · exact commitEv_nonGH (hc e h)

/-- C2: whenever a platform (GitHub) release was created and its tag
recorded, every rollback trace starts with the GitHub-release deletion
and never repeats it, so any local/remote tag deletion in the trace
occurs strictly after it. -/
theorem revert_platformRelease_before_tags (env : RevertEnv)
    (st : GitReleaseState) (h1 : st.CreatedGitHubRelease = true)
    (h2 : st.GitHubReleaseTag ≠ "") :
    ∃ rest, (RevertGitRelease env st).1 =
        GitEv.deleteGitHubRelease st.GitHubReleaseTag :: rest ∧
      ∀ e ∈ rest, ∀ tg, e ≠ GitEv.deleteGitHubRelease tg := by
  unfold RevertGitRelease
  rw [if_pos (by simp [h1, h2])]
  by_cases hOK : env.deleteGitHubReleaseOk = true
  · rw [if_pos hOK]
    refine ⟨(revertTagsPhase env st).1, rfl, fun e he tg => ?_⟩
    have := revertTagsPhase_events env st e he
    intro hcontra
    rw [hcontra] at this
    simp [nonGH] at this
  · rw [if_neg hOK]
    exact ⟨[], rfl, by simp⟩

theorem revert_platformRelease_before_tags_witness :
    ∃ rest, (RevertGitRelease ⟨true, true, true, true, true, true, true, true⟩
        ⟨"aaa1111", "bbb2222", "v1.3.0", "v1.3.0", true, true, true⟩).1 =
      GitEv.deleteGitHubRelease "v1.3.0" :: rest ∧
      ∀ e ∈ rest, ∀ tg, e ≠ GitEv.deleteGitHubRelease tg :=
  revert_platformRelease_before_tags
    ⟨true, true, true, true, true, true, true, true⟩
    ⟨"aaa1111", "bbb2222", "v1.3.0", "v1.3.0", true, true, true⟩
    rfl (by decide)

theorem commitEv_not_remoteTag {e : GitEv} (h : commitEv e = true) (tg : String) :
    e ≠ GitEv.deleteRemoteTag tg := by
  cases e <;> simp_all [commitEv]

/-- The rollback `RevertGitRelease` never consults the result of the local tag
deletion: the source discards it (`_ = git.DeleteLocalTag(...)`). -/
theorem revert_ignores_localTag_result (env : RevertEnv)
    (st : GitReleaseState) (b : Bool) :
    RevertGitRelease { env with deleteLocalTagOk := b } st =
      RevertGitRelease env st := by
  cases env
  rfl

/-- The GitHub-release phase only prepends to the tag phase's trace and
keeps its result, provided it does not abort. -/
theorem revert_reaches_tagsPhase (env : RevertEnv) (st : GitReleaseState)
    (hgh : st.CreatedGitHubRelease = true → st.GitHubReleaseTag ≠ "" →
      env.deleteGitHubReleaseOk = true) :
    ∃ pre, (RevertGitRelease env st).1 = pre ++ (revertTagsPhase env st).1 ∧
      (RevertGitRelease env st).2 = (revertTagsPhase env st).2 ∧
      ∀ tg, GitEv.deleteRemoteTag tg ∉ pre := by
  unfold RevertGitRelease
  by_cases hC : st.CreatedGitHubRelease = true
  · by_cases hT : st.GitHubReleaseTag = ""
    · rw [if_neg (by simp [hT])]
      exact ⟨[], rfl, rfl, by simp⟩
    · rw [if_pos (by simp [hC, hT]), if_pos (hgh hC hT)]
      exact ⟨[GitEv.deleteGitHubRelease st.GitHubReleaseTag], rfl, rfl, by simp⟩
  · rw [if_neg (by simp [hC])]
    exact ⟨[], rfl, rfl, by simp⟩

/-- C3: for a state with a recorded tag (and a GitHub-release step that
does not abort the rollback): when the tag was pushed, revert issues the
remote tag deletion and a failing remote deletion fails the rollback;
when it was not pushed, revert deletes only the local tag, never
attempts a remote deletion, and ignores a failure of the local deletion
(the result is the same whatever the local deletion returns). -/
theorem revert_tag_deletion_policy (env : RevertEnv) (st : GitReleaseState)
    (ht : st.TagName ≠ "")
    (hgh : st.CreatedGitHubRelease = true → st.GitHubReleaseTag ≠ "" →
      env.deleteGitHubReleaseOk = true) :
    (st.PushedTag = true →
      GitEv.deleteRemoteTag st.TagName ∈ (RevertGitRelease env st).1 ∧
      (env.deleteRemoteTagOk = false →
        (RevertGitRelease env st).2 =
          some ("rollback: failed deleting remote tag " ++ st.TagName))) ∧
    (st.PushedTag = false →
      GitEv.deleteLocalTag st.TagName ∈ (RevertGitRelease env st).1 ∧
      (∀ tg, GitEv.deleteRemoteTag tg ∉ (RevertGitRelease env st).1) ∧
      (∀ b, RevertGitRelease { env with deleteLocalTagOk := b } st =
        RevertGitRelease env st)) := by
  obtain ⟨pre, hpre, hres, hpreR⟩ := revert_reaches_tagsPhase env st hgh
  constructor
  · intro hPT
    unfold revertTagsPhase at hpre hres
    rw [if_pos ht, if_pos hPT] at hpre hres
    by_cases hRT : env.deleteRemoteTagOk = true
    · rw [if_pos hRT] at hpre
      exact ⟨by simp [hpre], fun hcontra => by rw [hcontra] at hRT; simp at hRT⟩
    · rw [if_neg hRT] at hpre hres
      exact ⟨by simp [hpre], fun _ => by simpa using hres⟩
  · intro hPT
    have hPT' : ¬st.PushedTag = true := by simp [hPT]
    unfold revertTagsPhase at hpre hres
    rw [if_pos ht, if_neg hPT'] at hpre
    refine ⟨by simp [hpre], fun tg hmem => ?_,
      fun b => revert_ignores_localTag_result env st b⟩
    rw [hpre] at hmem
    rcases List.mem_append.mp hmem with h | h
    · exact hpreR tg h
    · rcases List.mem_cons.mp h with h' | h'
      · exact absurd h' (by simp)
      · exact absurd rfl
          (commitEv_not_remoteTag (revertCommitsPhase_events env st _ h') tg ·)

theorem revert_tag_deletion_policy_witness :
    GitEv.deleteRemoteTag "v1.3.0" ∈
      (RevertGitRelease ⟨true, true, false, true, true, true, true, true⟩
        ⟨"aaa1111", "bbb2222", "v1.3.0", "v1.3.0", true, true, true⟩).1 ∧
    (RevertGitRelease ⟨true, true, false, true, true, true, true, true⟩
        ⟨"aaa1111", "bbb2222", "v1.3.0", "v1.3.0", true, true, true⟩).2 =
      some "rollback: failed deleting remote tag v1.3.0" := by
  have h :=
    ((revert_tag_deletion_policy
      ⟨true, true, false, true, true, true, true, true⟩
      ⟨"aaa1111", "bbb2222", "v1.3.0", "v1.3.0", true, true, true⟩
      (by decide) (fun _ _ => rfl)).1 rfl)
  exact ⟨h.1, h.2 rfl⟩

/-- State of the C9 counterexample: a GitHub release and pushed tag were
recorded, no release commit. -/
def c9State : GitReleaseState := ⟨"", "", "v1.0.0", "v1.0.0", false, true, true⟩

/-- Environment of the C9 counterexample: deleting the GitHub release
fails, everything else succeeds. -/
def c9Env : RevertEnv := ⟨false, true, true, true, true, true, true, true⟩

/-- C9 (counterexample): the claim fails as stated.  When the
GitHub-release deletion fails, `RevertGitRelease` returns immediately:
its trace is the single failed deletion and the untracked-file cleanup
is never performed. -/
theorem revert_cleanup_not_unconditional_cex :
    (RevertGitRelease c9Env c9State).1 = [GitEv.deleteGitHubRelease "v1.0.0"] ∧
    GitEv.cleanUntracked ∉ (RevertGitRelease c9Env c9State).1 ∧
    (RevertGitRelease c9Env c9State).2 =
      some "rollback: failed deleting GitHub release v1.0.0" := by
  decide

theorem cleanUntracked_mem_cleanup (env : RevertEnv) :
    GitEv.cleanUntracked ∈ (revertCleanup env).1 := by
  simp [revertCleanup]

theorem cleanUntracked_mem_commitsPhase (env : RevertEnv)
    (st : GitReleaseState) (hpc : env.pushCommitsOk = true)
    (hhr : env.hardResetOk = true)
    (hcons : st.ReleaseHead ≠ "" → st.PushedCommit = false → st.PreHead ≠ "") :
    GitEv.cleanUntracked ∈ (revertCommitsPhase env st).1 := by
  unfold revertCommitsPhase
  by_cases hR : st.ReleaseHead = ""
  · rw [if_neg (not_not_intro hR)]
    exact cleanUntracked_mem_cleanup env
  · rw [if_pos hR]
    by_cases hP : st.PushedCommit = true
    · rw [if_pos hP, if_pos hpc]
      simp [revertCleanup]
    · have hP' : st.PushedCommit = false := by simpa using hP
      rw [if_neg hP, if_pos (hcons hR hP'), if_pos hhr]
      simp [revertCleanup]

/-- C9 (amended): whenever no compensation step before the cleanup fails
(GitHub-release deletion, remote tag deletion, revert-commit push and
hard reset all succeed, and the state is not the inconsistent
commit-without-pre-head one), `RevertGitRelease` performs the removal of
untracked files — even when that removal itself then fails.  A failing
earlier step, by contrast, aborts the rollback before the cleanup. -/
theorem revert_cleanup_on_success_paths (env : RevertEnv)
    (st : GitReleaseState)
    (hgh : env.deleteGitHubReleaseOk = true)
    (hrt : env.deleteRemoteTagOk = true)
    (hpc : env.pushCommitsOk = true)
    (hhr : env.hardResetOk = true)
    (hcons : st.ReleaseHead ≠ "" → st.PushedCommit = false → st.PreHead ≠ "") :
    GitEv.cleanUntracked ∈ (RevertGitRelease env st).1 := by
  have hct : GitEv.cleanUntracked ∈ (revertTagsPhase env st).1 := by
    have hcm := cleanUntracked_mem_commitsPhase env st hpc hhr hcons
    unfold revertTagsPhase
    by_cases hT : st.TagName = ""
    · rw [if_neg (not_not_intro hT)]
      exact hcm
    · rw [if_pos hT]
      by_cases hPT : st.PushedTag = true
      · rw [if_pos hPT, if_pos hrt]
        simp [hcm]
      · rw [if_neg hPT]
        simp [hcm]
  obtain ⟨pre, hpre, -, -⟩ :=
    revert_reaches_tagsPhase env st (fun _ _ => hgh)
  rw [hpre]
  exact List.mem_append.mpr (Or.inr hct)

theorem revert_cleanup_on_success_paths_witness :
    GitEv.cleanUntracked ∈
      (RevertGitRelease ⟨true, true, true, true, true, true, true, false⟩
        ⟨"aaa1111", "bbb2222", "v1.3.0", "v1.3.0", true, true, true⟩).1 :=
  revert_cleanup_on_success_paths
    ⟨true, true, true, true, true, true, true, false⟩
    ⟨"aaa1111", "bbb2222", "v1.3.0", "v1.3.0", true, true, true⟩
    rfl rfl rfl rfl (fun _ _ => by decide)

/-- C4: when any preflight predicate fails, the saga run terminates by
writing an error response and exiting before any backend side effect:
the trace is empty (in particular the backend's `Release` is never
invoked) and the outcome is the exit with the preflight error
response. -/
theorem preflight_failure_blocks_release (env : RunEnv) (cfg : NekoConfig)
    (rt : RType) (hc : env.currentFatal = none)
    (hp : env.git.isCleanErr.isSome = true ∨
      env.git.notDetachedErr.isSome = true ∨
      env.git.onMainBranchErr.isSome = true ∨
      env.git.hasUpstreamErr.isSome = true ∨
      env.git.isUpToDateErr.isSome = true) :
    (ServiceRun env cfg rt).1 = [] ∧
    (∀ v, RunEv.releaseCall v ∉ (ServiceRun env cfg rt).1) ∧
    ∃ resp, Preflight env.git = some resp ∧
      (ServiceRun env cfg rt).2 = RunOutcome.exited resp ∧
      resp.status = "error" := by
  have hpf : ∃ resp, Preflight env.git = some resp ∧ resp.status = "error" := by
    rcases h1 : env.git.isCleanErr with _ | m₁
    · rcases h2 : env.git.notDetachedErr with _ | m₂
      · rcases h3 : env.git.onMainBranchErr with _ | m₃
        · rcases h4 : env.git.hasUpstreamErr with _ | m₄
          · rcases h5 : env.git.isUpToDateErr with _ | m₅
            · simp [h1, h2, h3, h4, h5] at hp
            · exact ⟨WriteError "BRANCH_OUT_OF_DATE" m₅,
                by simp [Preflight, h1, h2, h3, h4, h5], rfl⟩
          · exact ⟨WriteError "NO_UPSTREAM_BRANCH" m₄,
              by simp [Preflight, h1, h2, h3, h4], rfl⟩
        · exact ⟨WriteError "INCORRECT_BRANCH" m₃,
            by simp [Preflight, h1, h2, h3], rfl⟩
      · exact ⟨WriteError "DETACHED_HEAD" m₂,
          by simp [Preflight, h1, h2], rfl⟩
    · exact ⟨WriteError "UNCOMMITTED_CHANGES" m₁,
        by simp [Preflight, h1], rfl⟩
  obtain ⟨resp, hresp, hstat⟩ := hpf
  have hrun : ServiceRun env cfg rt = ([], RunOutcome.exited resp) := by
    simp [ServiceRun, hc, hresp]
  exact ⟨by simp [hrun], fun v => by simp [hrun],
    resp, hresp, by simp [hrun], hstat⟩

/-- Sample environment whose working tree is dirty and everything else
would pass. -/
def dirtyEnv : RunEnv :=
  ⟨none, ⟨some "the working tree has uncommitted changes", none, none, none,
    none⟩, ⟨some "v1.2.2"⟩, none, none, none, none⟩

theorem preflight_failure_blocks_release_witness :
    (ServiceRun dirtyEnv cfg122 Patch).1 = [] ∧
    (∀ v, RunEv.releaseCall v ∉ (ServiceRun dirtyEnv cfg122 Patch).1) ∧
    ∃ resp, Preflight dirtyEnv.git = some resp ∧
      (ServiceRun dirtyEnv cfg122 Patch).2 = RunOutcome.exited resp ∧
      resp.status = "error" :=
  preflight_failure_blocks_release dirtyEnv cfg122 Patch rfl (Or.inl rfl)

/-- C8: when the backend's `Release` fails, the saga reports the release
failure whether or not `RevertRelease` succeeds; when the revert also
fails, the returned error wraps the revert error around the original
one, so both are visible to the caller. -/
theorem run_reports_release_and_revert_errors (env : RunEnv)
    (cfg : NekoConfig) (rt : RType) (version : SemVer) (e : GoErr)
    (hc : env.currentFatal = none)
    (hp : Preflight env.git = none)
    (hg : VersionGuard env.guard cfg = Except.ok version)
    (hreg : env.registryErr = none)
    (hrel : env.releaseErr = some e) :
    (env.revertErr = none →
      ServiceRun env cfg rt =
        ([RunEv.releaseCall (NextVersion version rt), RunEv.revertCall],
         RunOutcome.ret (some (.wrap1 "release failed: %w" e)))) ∧
    (∀ e2, env.revertErr = some e2 →
      ServiceRun env cfg rt =
        ([RunEv.releaseCall (NextVersion version rt), RunEv.revertCall],
         RunOutcome.ret (some (.wrap2 "%w: Failed undoing changes: %w"
           (.wrap1 "release failed: %w" e) e2)))) := by
  constructor
  · intro hrev
    simp [ServiceRun, hc, hp, hg, hreg, hrel, hrev, ResolveReleaseType]
  · intro e2 hrev
    simp [ServiceRun, hc, hp, hg, hreg, hrel, hrev, ResolveReleaseType]

/-- Sample environment for a failing release followed by a failing
revert: preflight passes, the guard sees tag `v1.2.2`. -/
def failingReleaseEnv : RunEnv :=
  ⟨none, ⟨none, none, none, none, none⟩, ⟨some "v1.2.2"⟩, none,
   some (.msg "goreleaser exited with status 1"),
   some (.msg "rollback: failed deleting remote tag v1.2.3"), none⟩

theorem run_reports_release_and_revert_errors_witness :
    ServiceRun failingReleaseEnv cfg122 Patch =
      ([RunEv.releaseCall (NextVersion ver122 Patch), RunEv.revertCall],
       RunOutcome.ret (some (.wrap2 "%w: Failed undoing changes: %w"
         (.wrap1 "release failed: %w" (.msg "goreleaser exited with status 1"))
         (.msg "rollback: failed deleting remote tag v1.2.3")))) :=
  (run_reports_release_and_revert_errors failingReleaseEnv cfg122 Patch
      ver122 (.msg "goreleaser exited with status 1") rfl rfl (by decide)
      rfl rfl).2
    (.msg "rollback: failed deleting remote tag v1.2.3") rfl

/-- C10: a release type outside the three known constants is not
rejected: `ResolveReleaseType` returns it with a `nil` error,
`NextVersion` leaves the version unchanged, and the saga proceeds to
invoke the backend's `Release` with the unchanged version. -/
theorem unknown_releaseType_passes_through (t : RType)
    (h1 : t ≠ Major) (h2 : t ≠ Minor) (h3 : t ≠ Patch)
    (env : RunEnv) (cfg : NekoConfig) (v : SemVer)
    (hc : env.currentFatal = none) (hp : Preflight env.git = none)
    (hg : VersionGuard env.guard cfg = Except.ok v)
    (hreg : env.registryErr = none) :
    ResolveReleaseType v t = (t, none) ∧
    NextVersion v t = v ∧
    RunEv.releaseCall v ∈ (ServiceRun env cfg t).1 := by
  have hnv : NextVersion v t = v := by simp [NextVersion, h1, h2, h3]
  refine ⟨rfl, hnv, ?_⟩
  rcases hrel : env.releaseErr with _ | e
  · simp [ServiceRun, hc, hp, hg, hreg, hrel, ResolveReleaseType, hnv]
  · rcases hrev : env.revertErr with _ | e2 <;>
      simp [ServiceRun, hc, hp, hg, hreg, hrel, hrev, ResolveReleaseType, hnv]

/-- Sample environment for a clean run (release and config save both
succeed). -/
def cleanRunEnv : RunEnv :=
  ⟨none, ⟨none, none, none, none, none⟩, ⟨some "v1.2.2"⟩, none, none, none,
   none⟩

theorem unknown_releaseType_passes_through_witness :
    ResolveReleaseType ver122 "hotfix" = ("hotfix", none) ∧
    NextVersion ver122 "hotfix" = ver122 ∧
    RunEv.releaseCall ver122 ∈ (ServiceRun cleanRunEnv cfg122 "hotfix").1 :=
  unknown_releaseType_passes_through "hotfix" (by decide) (by decide)
    (by decide) cleanRunEnv cfg122 ver122 rfl rfl (by decide) rfl

/-- C5: when the handler exits non-zero, the gateway returns the parsed
primary-stream response verbatim (with the structured stderr log
attached) whenever that stream parses as a structured response, and
synthesizes the transport error embedding the raw stderr text only when
the parse fails. -/
theorem dispatch_prefers_parsed_response (unm : String → Option Response)
    (env : DispatchEnv) (m : String)
    (hrun : env.runErr = some m) (hemp : unm "" = none) :
    (∀ resp, unm env.stdout = some resp →
      Dispatch unm env =
        Except.ok { resp with logs := parseLogOutput env.now env.stderr }) ∧
    (unm env.stdout = none →
      Dispatch unm env =
        Except.error ("plugin execution failed: " ++ m ++ "\nStderr: " ++
          env.stderr)) := by
  constructor
  · intro resp hr
    have hne : env.stdout ≠ "" := by
      intro h
      rw [h, hemp] at hr
      cases hr
    have hlen : 0 < env.stdout.length := by
      cases h : env.stdout with
      | mk l =>
        cases l with
        | nil => exact absurd h hne
        | cons c cs => simp [h, String.length]
    simp [Dispatch, hrun, hr, hlen]
  · intro hr
    by_cases hl : 0 < env.stdout.length <;>
      simp [Dispatch, hrun, hr, hl]

/-- Sample structured error response a handler may report before
exiting non-zero. -/
def sampleResp : Response :=
  ⟨"error", "release", "1.0.0", some ⟨"EXECUTION_ERROR", "release failed"⟩, []⟩

/-- Sample for `json.Unmarshal`: the exact handler stdout parses to
`sampleResp`, everything else fails to parse. -/
def sampleUnm : String → Option Response :=
  fun s => if s = "OUT" then some sampleResp else none

/-- Dispatch sample: the child exited non-zero with parsable stdout and
one structured stderr line. -/
def sampleDispatchEnv : DispatchEnv :=
  ⟨some "exit status 1", "OUT", "14:05:01 [exec] step failed", "15:00:00"⟩

theorem dispatch_prefers_parsed_response_witness :
    Dispatch sampleUnm sampleDispatchEnv =
      Except.ok { sampleResp with
        logs := parseLogOutput "15:00:00" "14:05:01 [exec] step failed" } :=
  (dispatch_prefers_parsed_response sampleUnm sampleDispatchEnv
    "exit status 1" rfl (by decide)).1 sampleResp (by decide)

end Neko
